import Mathlib

/-
Verification of the animator core (animator.js / css-animator.js).

The embedding is a shallow one: the mutable closure state of each JS
constructor becomes a Lean structure, each method becomes a pure state
transformer, and every call to `Date.now ()` becomes an explicit `now : ℚ`
argument.  Machine floats are modelled by `ℚ` (all operations appearing in
the modelled code are field operations and comparisons).  JS `throw` is
modelled by `Except String`.  Caller-supplied callbacks (`onAnimationStart`,
`onAnimationEnd`, the updater) are side-effecting; here we model their
observable effect as invocation counters (`startFires`, `endFires`,
`updaterCalls`).
-/

/-! ## FrameGenerator (animator.js, function FrameGenerator)

The closure variables of `FrameGenerator` become the fields below.  `n` is
the `numFrames` argument (the spec requires it to be a positive integer, so
it is embedded as `ℕ`), `fpms` is the captured `FPS / 1000`, and `i_t`,
`t_i`, `offset`, `tPaused`, `isStarted`, `isNotPaused`, `prevWasZero`,
`prevWasOne` are the closure variables of the same names.  `startFires` /
`endFires` count the invocations of `onAnimStart` / `onAnimEnd`. -/

structure FGState where
  n : ℕ
  fpms : ℚ
  i_t : ℚ
  t_i : ℚ
  offset : ℚ
  tPaused : ℚ
  isStarted : Bool
  isNotPaused : Bool
  prevWasZero : Bool
  prevWasOne : Bool
  startFires : ℕ
  endFires : ℕ
deriving Repr, DecidableEq

/-- Construction: `t_i = Date.now ()`, `i_t = 0`, `offset = 0`,
`tPaused = t_i`, not started, not paused, both boundary flags false. -/
def FGState.init (numFrames : ℕ) (fpms now : ℚ) : FGState :=
  { n := numFrames, fpms := fpms, i_t := 0, t_i := now, offset := 0,
    tPaused := now, isStarted := false, isNotPaused := true,
    prevWasZero := false, prevWasOne := false, startFires := 0, endFires := 0 }

/-- `boundCheck`: clamps `i_t` into `[0, n]` and fires the start / end
callback once per entry into a boundary (`prevWasZero` / `prevWasOne`
suppress repeated firing); entering the open interval clears both flags. -/
def FGState.boundCheck (s : FGState) : FGState :=
  if s.i_t ≤ 0 then
    { s with i_t := 0,
             startFires := if s.prevWasZero then s.startFires else s.startFires + 1,
             prevWasZero := true }
  else if (s.n : ℚ) ≤ s.i_t then
    { s with i_t := (s.n : ℚ),
             endFires := if s.prevWasOne then s.endFires else s.endFires + 1,
             prevWasOne := true }
  else
    { s with prevWasZero := false, prevWasOne := false }

/-- The condensed Runge-Kutta step of the source: `rk4 (x, v, dt) = x + dt * v`. -/
def rk4 (x v dt : ℚ) : ℚ := x + dt * v

/-- `start ()`: anchors the clock; no-op when already started. -/
def FGState.start (s : FGState) (now : ℚ) : FGState :=
  if s.isStarted then s else { s with offset := 0, t_i := now, isStarted := true }

/-- `reset ()`: frame count to 0, offset cleared. -/
def FGState.reset (s : FGState) : FGState :=
  { s with offset := 0, i_t := 0 }

/-- `end ()` of the source (renamed: `end` is a Lean keyword): frame count
to `n`, offset cleared. -/
def FGState.endFrame (s : FGState) : FGState :=
  { s with offset := 0, i_t := (s.n : ℚ) }

/-- `pause ()`: records `tPaused = t_i` (the last clock anchor — the source
does not read `Date.now ()` here) and marks the generator paused; no-op when
already paused. -/
def FGState.pause (s : FGState) : FGState :=
  if s.isNotPaused then { s with tPaused := s.t_i, isNotPaused := false } else s

/-- `unpause ()`: when paused, adds `Date.now () - tPaused` to the offset
(only if started) and marks the generator unpaused. -/
def FGState.unpause (s : FGState) (now : ℚ) : FGState :=
  if s.isNotPaused then s
  else { s with
         offset := if s.isStarted then s.offset + (now - s.tPaused) else s.offset,
         isNotPaused := true }

/-- `frame ()`. -/
def FGState.frame (s : FGState) : ℚ := s.i_t

/-- `percent () = i_t / n`.  (For `n = 0` the JS value is `NaN`; in `ℚ`
division by zero yields `0`.  All theorems below that depend on `percent`
assume `1 ≤ n`, as the spec requires `numFrames` to be a positive integer.) -/
def FGState.percent (s : FGState) : ℚ := s.i_t / (s.n : ℚ)

/-- The scan value of `calculateXStar`:
`value = isPositiveToNegative ? 1 - f (p) : f (1 - p)`. -/
def xStarValue (f : ℚ → ℚ) (isPositiveToNegative : Bool) (p : ℚ) : ℚ :=
  if isPositiveToNegative then 1 - f p else f (1 - p)

/-- The per-index sample of the `calculateXStar` scan:
`nextValue = isPositiveToNegative ? f (1 - i/n) : 1 - f (i/n)`. -/
def xStarSample (f : ℚ → ℚ) (isPositiveToNegative : Bool) (n : ℕ) (i : ℕ) : ℚ :=
  if isPositiveToNegative then f (1 - (i : ℚ) / (n : ℚ)) else 1 - f ((i : ℚ) / (n : ℚ))

/-- Distance of sample `i` from the scan value (the `Math.abs` comparison of
the source loop). -/
def xStarDist (f : ℚ → ℚ) (isPositiveToNegative : Bool) (n : ℕ) (value : ℚ) (i : ℕ) : ℚ :=
  |xStarSample f isPositiveToNegative n i - value|

/-- The `for (var i = 0; i <= n; i++)` loop of `calculateXStar`.  `fuel` is
`n + 1 - i`; the accumulator holds `(closestValue, xStar)`, `none` standing
for the initial `(Infinity, Infinity)` pair (any finite distance beats
`Infinity`, so the first iteration always replaces it).  The loop breaks as
soon as `closestValue == value` after an update. -/
def xStarLoop (f : ℚ → ℚ) (isPositiveToNegative : Bool) (n : ℕ) (value : ℚ) :
    ℕ → ℕ → Option (ℚ × ℚ) → Option (ℚ × ℚ)
  | 0, _, acc => acc
  | fuel + 1, i, acc =>
    let nextValue := xStarSample f isPositiveToNegative n i
    let acc' : ℚ × ℚ :=
      match acc with
      | none => (nextValue, (i : ℚ) / (n : ℚ))
      | some (cv, xs) =>
        if |nextValue - value| < |cv - value| then (nextValue, (i : ℚ) / (n : ℚ)) else (cv, xs)
    if acc'.1 = value then some acc'
    else xStarLoop f isPositiveToNegative n value fuel (i + 1) (some acc')

/-- `calculateXStar (f, isPositiveToNegative)`: linear scan over the `n + 1`
discretized frame fractions.  The `none` fallback is unreachable: the loop
body always executes at `i = 0` (it corresponds to the JS returning the
initial `Infinity`, which cannot happen). -/
def FGState.calculateXStar (s : FGState) (f : ℚ → ℚ) (isPositiveToNegative : Bool) : ℚ :=
  match xStarLoop f isPositiveToNegative s.n (xStarValue f isPositiveToNegative s.percent)
      (s.n + 1) 0 none with
  | some r => r.2
  | none => 0

/-- The unclamped next frame value:
`rk4 (i_t, FPMS, (now - t_i - offset) * (isPositive ? 1 : -1))`. -/
def FGState.rawNext (s : FGState) (isPositive : Bool) (now : ℚ) : ℚ :=
  rk4 s.i_t s.fpms ((now - s.t_i - s.offset) * (if isPositive then 1 else -1))

/-- `next (isPositive)`: when unpaused and started, advances `i_t` by the
elapsed (offset-corrected) time times `FPMS`, runs `boundCheck`, and
re-anchors `t_i := Date.now () - offset`; otherwise a complete no-op. -/
def FGState.next (s : FGState) (isPositive : Bool) (now : ℚ) : FGState :=
  if s.isNotPaused && s.isStarted then
    let s1 := { s with i_t := s.rawNext isPositive now }
    let s2 := s1.boundCheck
    { s2 with t_i := now - s2.offset }
  else s

/-- `revertToPercentage (percentage)`: only when started, clears the offset,
sets `i_t := percentage * n` and re-runs `boundCheck`. -/
def FGState.revertToPercentage (s : FGState) (percentage : ℚ) : FGState :=
  if s.isStarted then
    FGState.boundCheck { s with offset := 0, i_t := percentage * (s.n : ℚ) }
  else s

/-- `revertToFrame (frame)`: only when started, clears the offset, sets
`i_t := frame` and re-runs `boundCheck`. -/
def FGState.revertToFrame (s : FGState) (frame : ℚ) : FGState :=
  if s.isStarted then
    FGState.boundCheck { s with offset := 0, i_t := frame }
  else s

/-! The public operations of a FrameGenerator, as an inductive so that
properties can be stated over arbitrary call sequences. -/

inductive FGOp where
  | start (now : ℚ)
  | reset
  | endFrame
  | pause
  | unpause (now : ℚ)
  | next (isPositive : Bool) (now : ℚ)
  | revertToFrame (frame : ℚ)
  | revertToPercentage (p : ℚ)

/-- Interpretation of one public FrameGenerator call. -/
def FGState.applyOp (s : FGState) : FGOp → FGState
  | .start now => s.start now
  | .reset => s.reset
  | .endFrame => s.endFrame
  | .pause => s.pause
  | .unpause now => s.unpause now
  | .next d now => s.next d now
  | .revertToFrame fr => s.revertToFrame fr
  | .revertToPercentage p => s.revertToPercentage p

/-- Interpretation of a sequence of public FrameGenerator calls. -/
def FGState.applyOps (s : FGState) (l : List FGOp) : FGState :=
  l.foldl FGState.applyOp s

/-! ## Animator (animator.js, function Animator)

One animation's record (the object built by `addAnimation`).  The opaque
animated values live in an arbitrary type `V`.  `interpolator` is `Option`
because the source performs no validation: a missing interpolator is stored
as JS `undefined` and only explodes when called (modelled as
`Except.error`).  Likewise `hasUpdater` records whether an updater was
supplied; `updaterCalls` counts its invocations. -/

structure Animation (V : Type) where
  isActive : Bool
  animationDirection : Bool
  startValue : V
  endValue : V
  interpolator : Option (V → V → ℚ → V)
  hasUpdater : Bool
  interpolationTransform : ℚ → ℚ
  isSymmetric : Bool
  experiencedDirectionChange : Bool
  initializedADirectionToChange : Bool
  previousDirectionWasForward : Bool
  frameGenerator : FGState
  updaterCalls : ℕ

/-- The `animationProps` argument of `addAnimation`.  Optional JS fields are
`Option`; `animateNegatively` is read through `!!`, so its absence and
`false` coincide and it is a plain `Bool`.  `numFrames` is embedded as `ℕ`
(the spec constrains it to a positive integer; the source itself accepts
anything without checking). -/
structure AnimationProps (V : Type) where
  animationName : String
  startValue : V
  endValue : V
  interpolator : Option (V → V → ℚ → V)
  updater : Bool
  interpolationTransform : Option (ℚ → ℚ)
  isActive : Option Bool
  isSymmetric : Option Bool
  animateNegatively : Bool
  numFrames : ℕ

/-- The Animator closure state: the `animations` object (an association
list, in JS insertion order), the captured `FPS`, and the two loop-control
flags. -/
structure AnimatorState (V : Type) where
  animations : List (String × Animation V)
  FPS : ℚ
  animatorIsStarted : Bool
  continueLooping : Bool

/-- A fresh Animator (`new Animator (fps)`). -/
def emptyAnimator (V : Type) (fps : ℚ) : AnimatorState V :=
  { animations := [], FPS := fps, animatorIsStarted := false, continueLooping := false }

/-- `animations[name]` lookup. -/
def lookupAnim {V : Type} (l : List (String × Animation V)) (name : String) :
    Option (Animation V) :=
  (l.find? (fun p => p.1 == name)).map Prod.snd

/-- Apply `g` to the animation stored under `name` (no effect on other
keys, no effect at all when the name is absent). -/
def updAnim {V : Type} (l : List (String × Animation V)) (name : String)
    (g : Animation V → Animation V) : List (String × Animation V) :=
  l.map (fun p => if p.1 == name then (p.1, g p.2) else p)

/-- `animations[name] = obj`: replaces in place when the key exists (JS
objects keep the original insertion position), appends otherwise. -/
def putAnim {V : Type} (l : List (String × Animation V)) (name : String)
    (a : Animation V) : List (String × Animation V) :=
  if (lookupAnim l name).isSome then updAnim l name (fun _ => a) else l ++ [(name, a)]

namespace Animator

/-- `addAnimation (animationProps)` — pure field extraction with the
source's defaults, construction of the FrameGenerator (which captures
`FPS / 1000` and `Date.now ()`), and an immediate `pause ()` when the
animation starts inactive.  The source body contains no validation and no
throw path, so the embedding is total: registration always succeeds.
Note `animationDirection = !!animationProps.animateNegatively` verbatim
from the source (line 175). -/
def addAnimation {V : Type} (st : AnimatorState V) (props : AnimationProps V)
    (now : ℚ) : AnimatorState V :=
  let isActive := props.isActive.getD true
  let fg0 := FGState.init props.numFrames (st.FPS / 1000) now
  let anim : Animation V :=
    { isActive := isActive,
      animationDirection := props.animateNegatively,
      startValue := props.startValue,
      endValue := props.endValue,
      interpolator := props.interpolator,
      hasUpdater := props.updater,
      interpolationTransform := props.interpolationTransform.getD (fun v => v),
      isSymmetric := props.isSymmetric.getD true,
      experiencedDirectionChange := false,
      initializedADirectionToChange := false,
      previousDirectionWasForward := false,
      frameGenerator := if isActive then fg0 else fg0.pause,
      updaterCalls := 0 }
  { st with animations := putAnim st.animations props.animationName anim }

/-- `hasAnimation (animationName)`. -/
def hasAnimation {V : Type} (st : AnimatorState V) (name : String) : Bool :=
  (lookupAnim st.animations name).isSome

/-- `removeAnimation (animationName)`: `delete animations[name]` (the key is
unique, so removing every pair with that key is the same deletion). -/
def removeAnimation {V : Type} (st : AnimatorState V) (name : String) : AnimatorState V :=
  { st with animations := st.animations.filter (fun p => !(p.1 == name)) }

/-- `playAnimation (animationName)`: only when found and its generator is
paused, sets `isActive := true` and unpauses. -/
def playAnimation {V : Type} (st : AnimatorState V) (name : String) (now : ℚ) :
    AnimatorState V :=
  { st with animations := updAnim st.animations name (fun a =>
      if a.frameGenerator.isNotPaused then a
      else { a with isActive := true, frameGenerator := a.frameGenerator.unpause now }) }

/-- `pauseAnimation (animationName)`: only when found and its generator is
not paused, sets `isActive := false` and pauses. -/
def pauseAnimation {V : Type} (st : AnimatorState V) (name : String) : AnimatorState V :=
  { st with animations := updAnim st.animations name (fun a =>
      if a.frameGenerator.isNotPaused then
        { a with isActive := false, frameGenerator := a.frameGenerator.pause }
      else a) }

/-- `setAnimationForward (animationName)`. -/
def setAnimationForward {V : Type} (st : AnimatorState V) (name : String) : AnimatorState V :=
  { st with animations := updAnim st.animations name (fun a =>
      let a1 := { a with animationDirection := true }
      let a2 :=
        if a1.initializedADirectionToChange && !a1.previousDirectionWasForward then
          { a1 with experiencedDirectionChange := true }
        else { a1 with initializedADirectionToChange := true }
      { a2 with previousDirectionWasForward := true }) }

/-- `setAnimationBackward (animationName)`. -/
def setAnimationBackward {V : Type} (st : AnimatorState V) (name : String) : AnimatorState V :=
  { st with animations := updAnim st.animations name (fun a =>
      let a1 := { a with animationDirection := false }
      let a2 :=
        if a1.initializedADirectionToChange && a1.previousDirectionWasForward then
          { a1 with experiencedDirectionChange := true }
        else { a1 with initializedADirectionToChange := true }
      { a2 with previousDirectionWasForward := false }) }

/-- `switchAnimationDirection (animationName)`: flips the direction, flags
the change, and records `previousDirectionWasForward = !newDirection`. -/
def switchAnimationDirection {V : Type} (st : AnimatorState V) (name : String) :
    AnimatorState V :=
  { st with animations := updAnim st.animations name (fun a =>
      let d := !a.animationDirection
      { a with animationDirection := d,
               experiencedDirectionChange := true,
               previousDirectionWasForward := !d }) }

/-- `resetAnimation (animationName)`. -/
def resetAnimation {V : Type} (st : AnimatorState V) (name : String) : AnimatorState V :=
  { st with animations := updAnim st.animations name (fun a =>
      { a with frameGenerator := a.frameGenerator.reset }) }

/-- `endAnimation (animationName)`. -/
def endAnimation {V : Type} (st : AnimatorState V) (name : String) : AnimatorState V :=
  { st with animations := updAnim st.animations name (fun a =>
      { a with frameGenerator := a.frameGenerator.endFrame }) }

/-- `start ()` of the Animator: arms the loop once. -/
def startLoop {V : Type} (st : AnimatorState V) : AnimatorState V :=
  if st.animatorIsStarted then st
  else { st with animatorIsStarted := true, continueLooping := true }

/-- `pause ()` of the Animator: cancels the loop only. -/
def pauseLoop {V : Type} (st : AnimatorState V) : AnimatorState V :=
  if st.continueLooping then { st with continueLooping := false } else st

/-- The per-animation body of `pauseAll`:
`isActive = false; frameGenerator.pause ()`. -/
def pauseAllAnim {V : Type} (a : Animation V) : Animation V :=
  { a with isActive := false, frameGenerator := a.frameGenerator.pause }

/-- `pauseAll ()`: when looping, additionally deactivates and pauses every
animation. -/
def pauseAll {V : Type} (st : AnimatorState V) : AnimatorState V :=
  if st.continueLooping then
    { st with
      animations := st.animations.map (fun p => (p.1, pauseAllAnim p.2)),
      continueLooping := false }
  else st

/-- `play (anim1, ..., anim_n)` — the variadic form.  Re-arms the loop, then
unpauses each named animation's generator, guarded by
`if (animations[arguments[i]])`.  It never touches `isActive`. -/
def play {V : Type} (st : AnimatorState V) (names : List String) (now : ℚ) :
    AnimatorState V :=
  names.foldl (fun s nm =>
      if (lookupAnim s.animations nm).isSome then
        { s with animations := updAnim s.animations nm (fun a =>
            { a with frameGenerator := a.frameGenerator.unpause now }) }
      else s)
    { st with continueLooping := true }

/-- `play (replayAnims)` — the array form.  Re-arms the loop, then runs
`animations[replayAnims[i]].frameGenerator.unpause ()` WITHOUT the guard of
the variadic form: an unknown name dereferences `undefined` and throws a
TypeError.  (In JS the unpauses already performed before the throw persist;
the `Except` model discards them, which is irrelevant to the theorems
below.) -/
def playArray {V : Type} (st : AnimatorState V) (names : List String) (now : ℚ) :
    Except String (AnimatorState V) :=
  names.foldlM (fun s nm =>
      match lookupAnim s.animations nm with
      | none => .error "TypeError: cannot read property frameGenerator of undefined"
      | some _ => .ok { s with animations := updAnim s.animations nm (fun a =>
          { a with frameGenerator := a.frameGenerator.unpause now }) })
    { st with continueLooping := true }

end Animator

/-- `a.interpolator (x, y, t)` — throws a TypeError when the interpolator
was never supplied. -/
def Animation.callInterpolator {V : Type} (a : Animation V) (x y : V) (t : ℚ) :
    Except String V :=
  match a.interpolator with
  | some f => .ok (f x y t)
  | none => .error "TypeError: interpolator is not a function"

/-- `a.updater.apply (a.updater, uA)` — throws a TypeError when the updater
was never supplied. -/
def Animation.callUpdater {V : Type} (a : Animation V) : Except String Unit :=
  if a.hasUpdater then .ok () else .error "TypeError: updater is not a function"

namespace Animator

/-- The per-animation body of `mainLoop`: lazily start the generator; when
the animation is active and unpaused, advance the generator with `next`,
take `p = percent ()`, pick the branch from `animationDirection`,
`isSymmetric` and `experiencedDirectionChange`, compute the interpolated
value (possibly relocating through `calculateXStar` /
`revertToPercentage`), call the updater, and clear the direction-change
flag in the patched branches.  Returns the updated animation together with
the value handed to the updater (`none` when the animation was skipped). -/
def updateAnimation {V : Type} (a : Animation V) (now : ℚ) :
    Except String (Animation V × Option V) :=
  let fg0 := if a.frameGenerator.isStarted then a.frameGenerator
             else a.frameGenerator.start now
  if a.isActive && fg0.isNotPaused then do
    let fg1 := fg0.next a.animationDirection now
    let p := fg1.percent
    let r ←
      if !a.animationDirection && a.isSymmetric then
        if a.experiencedDirectionChange then do
          let xStar := fg1.calculateXStar a.interpolationTransform true
          let fg2 := fg1.revertToPercentage xStar
          let v ← a.callInterpolator a.endValue a.startValue
            (a.interpolationTransform (1 - xStar))
          pure (fg2, false, v)
        else do
          let v ← a.callInterpolator a.endValue a.startValue
            (a.interpolationTransform (1 - p))
          pure (fg1, a.experiencedDirectionChange, v)
      else
        if a.experiencedDirectionChange && a.isSymmetric then do
          let xStar := fg1.calculateXStar a.interpolationTransform false
          let fg2 := fg1.revertToPercentage xStar
          let v ← a.callInterpolator a.startValue a.endValue
            (a.interpolationTransform xStar)
          pure (fg2, false, v)
        else do
          let v ← a.callInterpolator a.startValue a.endValue
            (a.interpolationTransform p)
          pure (fg1, a.experiencedDirectionChange, v)
    let _ ← a.callUpdater
    pure ({ a with frameGenerator := r.1,
                   experiencedDirectionChange := r.2.1,
                   updaterCalls := a.updaterCalls + 1 }, some r.2.2)
  else
    pure ({ a with frameGenerator := fg0 }, none)

/-- One full `mainLoop` pass over every registered animation, in
registration order (a throw from any body aborts the pass, as in JS). -/
def mainLoopTick {V : Type} (st : AnimatorState V) (now : ℚ) :
    Except String (AnimatorState V) := do
  let anims ← st.animations.foldlM (fun acc p => do
      let r ← updateAnimation p.2 now
      pure (acc ++ [(p.1, r.1)])) []
  pure { st with animations := anims }

end Animator

/-! ## CSSAnimationQueue (css-animator.js, function CSSAnimationQueue)

`AnimationGroup` keeps the per-group bookkeeping; `element` / `transitions`
are opaque to the queue except for the count of CSS properties in
`transitions`, which is all the queue ever reads, so `push` takes that count
directly. -/

inductive GroupStatus where
  | closed
  | working
  | finished
deriving Repr, DecidableEq

structure AnimationGroup where
  id : ℕ
  numCSSProperties : ℕ
  numCSSPropertiesDone : ℕ
  isActivated : Bool
  status : GroupStatus
deriving Repr, DecidableEq

/-- `new AnimationGroup (element, transitions, groupId)`. -/
def AnimationGroup.mk0 (groupId numProps : ℕ) : AnimationGroup :=
  { id := groupId, numCSSProperties := numProps, numCSSPropertiesDone := 0,
    isActivated := false, status := .closed }

/-- `activate ()`. -/
def AnimationGroup.activate (g : AnimationGroup) : AnimationGroup :=
  { g with isActivated := true, status := .working }

/-- `finishAnimation ()`: throws when the group was never activated;
otherwise bumps the done counter and marks the group finished once every
member property has reported. -/
def AnimationGroup.finishAnimation (g : AnimationGroup) : Except String AnimationGroup :=
  if g.isActivated then
    let d := g.numCSSPropertiesDone + 1
    .ok { g with numCSSPropertiesDone := d,
                 status := if g.numCSSProperties ≤ d then .finished else g.status }
  else .error "Attempted to update AnimationGroup before active. Check the animation queue."

/-- The queue closure state.  `QUEUE_SIZE_LIMIT` is `none` for `Infinity`.
Group ids are unique per queue; the `QUEUE_ID + '-'` prefix of the source is
constant within one queue and is dropped, leaving the counter. -/
structure QState where
  queueArray : List AnimationGroup
  groupIdValue : ℕ
  QUEUE_SIZE_LIMIT : Option ℕ
  activeAnimationGroup : Option AnimationGroup
  previousAnimationGroup : Option AnimationGroup
  updateAnimator : Bool
  length : ℕ
deriving Repr, DecidableEq

/-- The constructor's limit normalization:
`arguments.length > 0 ? (limit <= 0 ? 1 : Math.ceil (limit)) : Infinity`. -/
def mkQueueLimit (limit : Option ℚ) : Option ℕ :=
  limit.map (fun q => if q ≤ 0 then 1 else ⌈q⌉.toNat)

/-- `new CSSAnimationQueue (limit)`. -/
def newQueue (limit : Option ℚ) : QState :=
  { queueArray := [], groupIdValue := 0, QUEUE_SIZE_LIMIT := mkQueueLimit limit,
    activeAnimationGroup := none, previousAnimationGroup := none,
    updateAnimator := false, length := 0 }

/-- The global (`window` / Node `globalThis`) object, as far as
`enforceQueueLimit` touches it.  `enforceQueueLimit` is declared as a plain
inner function of `push` and invoked as `enforceQueueLimit ()`, so in the
sloppy-mode source its `this` is the GLOBAL object, not the queue instance.
`length` is `none` for `undefined` (Node); in a browser `window.length` is
the number of frames, `some 0` on a frameless page. -/
structure GlobalThis where
  length : Option ℚ
  updateAnimator : Bool
  activeAnimationGroup : Option AnimationGroup
  previousAnimationGroup : Option AnimationGroup
deriving Repr, DecidableEq

/-- A fresh global object: `length` undefined, the other properties never
yet assigned (modelled by their JS-falsy defaults). -/
def freshGlobals : GlobalThis :=
  { length := none, updateAnimator := false,
    activeAnimationGroup := none, previousAnimationGroup := none }

/-- `enforceQueueLimit ()`, with the `this`-binding of the source: every
`this.x` reads or writes the global object `g`, while `queueObject` and
`QUEUE_SIZE_LIMIT` are closure variables of the queue.  The condition
`this.length + 1 > QUEUE_SIZE_LIMIT` therefore tests the global `length`:
`undefined + 1` is `NaN` and every comparison with `NaN` is false, and
`x + 1 > Infinity` is false for every finite `x`.  When the condition does
hold (a browser page with at least `QUEUE_SIZE_LIMIT` frames), the body
reassigns the GLOBAL active/previous fields, throwing a TypeError if the
global `activeAnimationGroup` is still undefined, and pops the closure
queue. -/
def enforceQueueLimit (q : QState) (g : GlobalThis) :
    Except String (QState × GlobalThis) :=
  let cond :=
    match g.length, q.QUEUE_SIZE_LIMIT with
    | some x, some k => decide ((k : ℚ) < x + 1)
    | some _, none => false
    | none, _ => false
  if cond then
    match g.activeAnimationGroup with
    | none => .error "TypeError: cannot set property status of undefined"
    | some ag =>
      match q.queueArray with
      | [] => .error "Error - cannot pop from an empty queue."
      | h :: t =>
        .ok ({ q with queueArray := t },
             { g with updateAnimator := true,
                      previousAnimationGroup := some { ag with status := .closed },
                      activeAnimationGroup := some h.activate })
  else .ok (q, g)

/-- `push (element, transitions)`: mints the group id, then either activates
the new group immediately (empty queue, no active group) or appends it to
the waiting list and calls `enforceQueueLimit ()`; finally updates
`this.length = 1 + queueObject.length` and returns the group id. -/
def QState.push (q : QState) (numProps : ℕ) (g : GlobalThis) :
    Except String (QState × GlobalThis × ℕ) := do
  let groupId := q.groupIdValue
  let q := { q with groupIdValue := q.groupIdValue + 1 }
  let animationGroup := AnimationGroup.mk0 groupId numProps
  let (q1, g1) ←
    if q.queueArray.length = 0 then
      if q.activeAnimationGroup.isSome then
        enforceQueueLimit
          { q with updateAnimator := false, queueArray := q.queueArray ++ [animationGroup] } g
      else
        pure ({ q with updateAnimator := true,
                       activeAnimationGroup := some animationGroup.activate }, g)
    else
      enforceQueueLimit
        { q with updateAnimator := false, queueArray := q.queueArray ++ [animationGroup] } g
  pure ({ q1 with length := 1 + q1.queueArray.length }, g1, groupId)

/-- `pop (groupId)`: matched against the active group, delegates to
`finishAnimation ()` and, when the group completes, closes it, promotes the
queue front (if any) and updates `length`; a mismatched or activeless call
WITH an argument throws the out-of-sequence error; a call with NO argument
never throws (the `else if (arguments.length)` guard). -/
def QState.pop (q : QState) (arg : Option ℕ) : Except String QState :=
  match q.activeAnimationGroup with
  | some a =>
    if arg = some a.id then do
      let a' ← a.finishAnimation
      if a'.status = .finished then
        let prev : AnimationGroup := { a' with status := .closed }
        match q.queueArray with
        | [] =>
          .ok { q with updateAnimator := true, previousAnimationGroup := some prev,
                       activeAnimationGroup := none, length := 0 }
        | h :: t =>
          .ok { q with updateAnimator := true, previousAnimationGroup := some prev,
                       activeAnimationGroup := some h.activate, queueArray := t,
                       length := 1 + t.length }
      else .ok { q with activeAnimationGroup := some a' }
    else
      match arg with
      | some _ => .error "Out of sequence error: attempted to pop a group that is not active."
      | none => .ok q
  | none =>
    match arg with
    | some _ => .error "Out of sequence error: attempted to pop while no group is active."
    | none => .ok q

/-- `clearQueue ()`. -/
def QState.clearQueue (q : QState) : QState :=
  { q with queueArray := [], activeAnimationGroup := none,
           previousAnimationGroup := none, updateAnimator := false, length := 0 }

/-! ## Concrete sample states (used by witnesses and counterexamples) -/

/-- A started, unpaused generator sitting mid-interval. -/
def fgSample : FGState :=
  { n := 4, fpms := 1, i_t := 1, t_i := 0, offset := 0, tPaused := 0,
    isStarted := true, isNotPaused := true, prevWasZero := false,
    prevWasOne := false, startFires := 0, endFires := 0 }

/-- `fgSample`, paused. -/
def fgPausedSample : FGState := { fgSample with isNotPaused := false }

/-- A generator resting at the end boundary, with the end callback already
fired on entry. -/
def fgAtEnd : FGState :=
  { n := 4, fpms := 1, i_t := 4, t_i := 0, offset := 0, tPaused := 0,
    isStarted := true, isNotPaused := true, prevWasZero := false,
    prevWasOne := true, startFires := 0, endFires := 1 }

/-- C4 trace, before pausing: `numFrames = 10`, `FPS = 60` (so
`FPMS = 3/50`), constructed and started at `t = 0`, one `next` at `t = 10`. -/
def fgC4before : FGState := ((FGState.init 10 (3/50) 0).start 0).next true 10

/-- C4 trace: `pause ()` is then invoked at wall-clock `t = 20` — the call
reads no clock, which the model makes plain by `FGState.pause` taking no
time argument — and `unpause ()` at `t = 30`. -/
def fgC4 : FGState := (fgC4before.pause).unpause 30

/-- The quadratic easing transform used in the C5 counterexample. -/
def sqT (x : ℚ) : ℚ := x * x

/-- Linear interpolation between two rationals, a concrete caller-supplied
interpolator. -/
def linInterp (s e : ℚ) (t : ℚ) : ℚ := s + (e - s) * t

/-- C5 counterexample generator: `n = 4`, currently at frame 2
(`percent = 1/2`), started and unpaused, queried with `now = t_i` so the
`next` inside the tick does not move it. -/
def c5fg : FGState :=
  { n := 4, fpms := 3/50, i_t := 2, t_i := 0, offset := 0, tPaused := 0,
    isStarted := true, isNotPaused := true, prevWasZero := false,
    prevWasOne := false, startFires := 0, endFires := 0 }

/-- C5 counterexample animation: symmetric, flagged with a direction change,
now running FORWARD (a backward-to-forward flip). -/
def c5anim : Animation ℚ :=
  { isActive := true, animationDirection := true, startValue := 0, endValue := 1,
    interpolator := some linInterp, hasUpdater := true,
    interpolationTransform := sqT, isSymmetric := true,
    experiencedDirectionChange := true, initializedADirectionToChange := true,
    previousDirectionWasForward := false, frameGenerator := c5fg, updaterCalls := 0 }

/-- C2 counterexample registration input: no interpolator supplied. -/
def badProps : AnimationProps ℚ :=
  { animationName := "x", startValue := 0, endValue := 1, interpolator := none,
    updater := true, interpolationTransform := none, isActive := none,
    isSymmetric := none, animateNegatively := false, numFrames := 5 }

/-- A one-animation animator used by the C10 witness. -/
def c10anim : Animation ℚ :=
  { isActive := true, animationDirection := true, startValue := 0, endValue := 1,
    interpolator := some linInterp, hasUpdater := true,
    interpolationTransform := fun v => v, isSymmetric := true,
    experiencedDirectionChange := false, initializedADirectionToChange := false,
    previousDirectionWasForward := false, frameGenerator := fgSample, updaterCalls := 0 }

/-- The C10 witness animator state. -/
def c10st : AnimatorState ℚ :=
  { animations := [("fade", c10anim)], FPS := 60,
    animatorIsStarted := true, continueLooping := true }

/-! ## Helper lemmas on the association-list registry -/

theorem lookupAnim_nil {V : Type} (name : String) :
    lookupAnim ([] : List (String × Animation V)) name = none := rfl

theorem lookupAnim_cons {V : Type} (k : String) (a : Animation V)
    (t : List (String × Animation V)) (nm : String) :
    lookupAnim ((k, a) :: t) nm = if k == nm then some a else lookupAnim t nm := by
  simp only [lookupAnim, List.find?]
  cases hb : (k == nm) <;> simp

theorem updAnim_cons {V : Type} (k : String) (a : Animation V)
    (t : List (String × Animation V)) (name : String)
    (f : Animation V → Animation V) :
    updAnim ((k, a) :: t) name f =
      (if k == name then (k, f a) else (k, a)) :: updAnim t name f := by
  simp only [updAnim, List.map]

theorem lookupAnim_updAnim {V : Type} (l : List (String × Animation V))
    (name nm : String) (f : Animation V → Animation V) :
    lookupAnim (updAnim l name f) nm =
      if nm = name then (lookupAnim l nm).map f else lookupAnim l nm := by
  induction l with
  | nil => simp [lookupAnim, updAnim]
  | cons p t ih =>
    obtain ⟨k, a⟩ := p
    by_cases hk : k = name <;> by_cases hm : k = nm <;>
      by_cases hnn : nm = name <;>
      simp [updAnim_cons, lookupAnim_cons, hk, hm, hnn, beq_iff_eq, ih] <;>
      simp_all

theorem updAnim_of_lookup_none {V : Type} (l : List (String × Animation V))
    (name : String) (f : Animation V → Animation V)
    (h : lookupAnim l name = none) : updAnim l name f = l := by
  induction l with
  | nil => rfl
  | cons p t ih =>
    obtain ⟨k, a⟩ := p
    rw [lookupAnim_cons] at h
    by_cases hk : k = name
    · simp [hk, beq_iff_eq] at h
    · have hb : (k == name) = false := by simp [beq_iff_eq, hk]
      rw [hb] at h
      simp at h
      rw [updAnim_cons, hb]
      simp [ih h]

theorem filter_ne_of_lookup_none {V : Type} (l : List (String × Animation V))
    (name : String) (h : lookupAnim l name = none) :
    l.filter (fun p => !(p.1 == name)) = l := by
  induction l with
  | nil => rfl
  | cons p t ih =>
    obtain ⟨k, a⟩ := p
    rw [lookupAnim_cons] at h
    by_cases hk : k = name
    · simp [hk, beq_iff_eq] at h
    · have hb : (k == name) = false := by simp [beq_iff_eq, hk]
      rw [hb] at h
      simp at h
      simp [List.filter, hb, ih h]

theorem lookupAnim_mapSnd {V : Type} (l : List (String × Animation V))
    (g : Animation V → Animation V) (nm : String) :
    lookupAnim (l.map (fun p => (p.1, g p.2))) nm = (lookupAnim l nm).map g := by
  induction l with
  | nil => rfl
  | cons p t ih =>
    obtain ⟨k, a⟩ := p
    by_cases hm : k = nm <;> simp [lookupAnim_cons, hm, beq_iff_eq, ih] at *

theorem lookupAnim_putAnim_self {V : Type} (l : List (String × Animation V))
    (name : String) (a : Animation V) :
    lookupAnim (putAnim l name a) name = some a := by
  unfold putAnim
  cases hl : lookupAnim l name with
  | some b =>
    simp [hl, lookupAnim_updAnim]
  | none =>
    simp [hl]
    induction l with
    | nil => simp [lookupAnim_cons]
    | cons p t ih =>
      obtain ⟨k, b⟩ := p
      rw [lookupAnim_cons] at hl
      by_cases hk : k = name
      · simp [hk, beq_iff_eq] at hl
      · have hb : (k == name) = false := by simp [beq_iff_eq, hk]
        rw [hb] at hl
        simp at hl
        simp [List.cons_append, lookupAnim_cons, hb, ih hl]

/-! ## Claim theorems -/

/-- C1 (code evaluated at the failing input): pushing a second group onto a
capacity-1 `CSSAnimationQueue` that already holds one active group does NOT
evict the active group.  `enforceQueueLimit` is invoked as a plain function,
so its `this` is the global object: the guard compares the global `length`
(undefined, so `undefined + 1` is `NaN` and the comparison is false) against
the limit, and the queue instance is never modified.  After the second push
the first group is still active and `working`, the second group sits in the
waiting list unactivated, nothing was flagged for deregistration, and the
instance `length` (2) exceeds the capacity (1) — contradicting the claimed
force-close of the active group and promotion of the waiting front. -/
theorem push_onto_full_queue_never_evicts :
    ∃ q1 g1, QState.push (newQueue (some 1)) 3 freshGlobals = .ok (q1, g1, 0) ∧
      QState.push q1 4 g1 = .ok
        ({ queueArray := [{ id := 1, numCSSProperties := 4, numCSSPropertiesDone := 0,
                            isActivated := false, status := .closed }],
           groupIdValue := 2,
           QUEUE_SIZE_LIMIT := some 1,
           activeAnimationGroup := some { id := 0, numCSSProperties := 3,
                                          numCSSPropertiesDone := 0,
                                          isActivated := true, status := .working },
           previousAnimationGroup := none,
           updateAnimator := false,
           length := 2 }, freshGlobals, 1) := by
  exact ⟨_, _, rfl, rfl⟩

/-- C4 (code evaluated at the failing input): `numFrames = 10`, `FPS = 60`;
the generator is constructed and started at `t = 0`, `next` runs at
`t = 10`, `pause ()` is called at wall-clock `t = 20` (the call reads no
clock at all — it stores the stale anchor `tPaused := t_i = 10`), and
`unpause ()` at `t = 30`.  The offset then grows by
`30 - tPaused = 20`, not by the 10 ms actually spent paused — the
un-ticked 10 ms before the pause are absorbed into the offset as well.  The
percent-neutrality half of the claim does hold, because neither `pause` nor
`unpause` touches `i_t`. -/
theorem unpause_offset_exceeds_pause_duration :
    fgC4.offset = 20 ∧ ¬ fgC4.offset = 30 - 20 ∧
      fgC4.percent = fgC4before.percent ∧ fgC4.i_t = fgC4before.i_t := by
  have hb : fgC4before =
      { n := 10, fpms := 3/50, i_t := 3/5, t_i := 10, offset := 0, tPaused := 0,
        isStarted := true, isNotPaused := true, prevWasZero := false,
        prevWasOne := false, startFires := 0, endFires := 0 } := by
    unfold fgC4before FGState.init FGState.start FGState.next FGState.rawNext rk4
      FGState.boundCheck
    norm_num
  have hc : fgC4 =
      { n := 10, fpms := 3/50, i_t := 3/5, t_i := 10, offset := 20, tPaused := 10,
        isStarted := true, isNotPaused := true, prevWasZero := false,
        prevWasOne := false, startFires := 0, endFires := 0 } := by
    unfold fgC4
    rw [hb]
    unfold FGState.pause FGState.unpause
    norm_num
  rw [hb, hc]
  norm_num [FGState.percent]

/-- C9: `pop (groupId)` called with an argument that does not match the
currently active group (including when no group is active at all) throws the
out-of-sequence error, and `finishAnimation ()` on a group that was never
activated throws — both protocol violations fail loudly. -/
theorem pop_mismatch_and_premature_finish_throw (q : QState) (gid : ℕ)
    (g : AnimationGroup)
    (hmis : ∀ a, q.activeAnimationGroup = some a → a.id ≠ gid)
    (hact : g.isActivated = false) :
    (∃ e, QState.pop q (some gid) = .error e) ∧
      (∃ e, g.finishAnimation = .error e) := by
  constructor
  · cases hq : q.activeAnimationGroup with
    | none =>
      exact ⟨"Out of sequence error: attempted to pop while no group is active.",
        by simp [QState.pop, hq]⟩
    | some a =>
      have hne : ¬ (some gid = some a.id) := by
        simpa using fun h => (hmis a hq) h.symm
      exact ⟨"Out of sequence error: attempted to pop a group that is not active.",
        by simp [QState.pop, hq, hne]⟩
  · exact ⟨"Attempted to update AnimationGroup before active. Check the animation queue.",
      by simp [AnimationGroup.finishAnimation, hact]⟩

/-- C9 witness: popping group 7 from a fresh queue (no active group) and
finishing a never-activated group both throw. -/
theorem pop_mismatch_and_premature_finish_throw_witness :
    (∃ e, QState.pop (newQueue none) (some 7) = .error e) ∧
      (∃ e, (AnimationGroup.mk0 0 2).finishAnimation = .error e) :=
  pop_mismatch_and_premature_finish_throw (newQueue none) 7 (AnimationGroup.mk0 0 2)
    (fun a h => by simp [newQueue] at h) rfl

/-- C3 counterexample: the ARRAY form of `play` is not guarded — on an
animator that does not know the name, `animations[name].frameGenerator`
dereferences `undefined` and throws a TypeError instead of being a silent
no-op. -/
theorem play_array_unknown_name_throws :
    Animator.playArray (emptyAnimator ℚ 60) ["ghost"] 0 =
      .error "TypeError: cannot read property frameGenerator of undefined" := rfl

/-- C3 (amended): operating on an unknown animation name is a silent no-op
for `hasAnimation`, `removeAnimation`, `playAnimation`, `pauseAnimation`,
the direction setters, `switchAnimationDirection`, `resetAnimation`,
`endAnimation`, and the VARIADIC form of `play` (which, as always, re-arms
the main loop but changes nothing else); the ARRAY form of `play`, however,
throws a TypeError on an unknown name. -/
theorem unknown_name_operations_are_noops {V : Type} (st : AnimatorState V)
    (name : String) (now : ℚ) (h : lookupAnim st.animations name = none) :
    Animator.hasAnimation st name = false ∧
    Animator.removeAnimation st name = st ∧
    Animator.playAnimation st name now = st ∧
    Animator.pauseAnimation st name = st ∧
    Animator.setAnimationForward st name = st ∧
    Animator.setAnimationBackward st name = st ∧
    Animator.switchAnimationDirection st name = st ∧
    Animator.resetAnimation st name = st ∧
    Animator.endAnimation st name = st ∧
    Animator.play st [name] now = { st with continueLooping := true } ∧
    (∃ e, Animator.playArray st [name] now = .error e) := by
  have hu : ∀ f : Animation V → Animation V, updAnim st.animations name f = st.animations :=
    fun f => updAnim_of_lookup_none st.animations name f h
  refine ⟨?_, ?_, ?_, ?_, ?_, ?_, ?_, ?_, ?_, ?_, ?_⟩
  · simp [Animator.hasAnimation, h]
  · simp [Animator.removeAnimation, filter_ne_of_lookup_none st.animations name h]
  · simp [Animator.playAnimation, hu]
  · simp [Animator.pauseAnimation, hu]
  · simp [Animator.setAnimationForward, hu]
  · simp [Animator.setAnimationBackward, hu]
  · simp [Animator.switchAnimationDirection, hu]
  · simp [Animator.resetAnimation, hu]
  · simp [Animator.endAnimation, hu]
  · simp [Animator.play, h]
  · exact ⟨"TypeError: cannot read property frameGenerator of undefined",
      by simp [Animator.playArray, h]⟩

/-- C3 witness: the no-op conclusions at a concrete unknown name on a fresh
animator. -/
theorem unknown_name_operations_are_noops_witness :
    Animator.hasAnimation (emptyAnimator ℚ 60) "ghost" = false ∧
      Animator.removeAnimation (emptyAnimator ℚ 60) "ghost" = emptyAnimator ℚ 60 ∧
      Animator.pauseAnimation (emptyAnimator ℚ 60) "ghost" = emptyAnimator ℚ 60 := by
  have h := unknown_name_operations_are_noops (emptyAnimator ℚ 60) "ghost" 0 rfl
  exact ⟨h.1, h.2.1, h.2.2.2.1⟩

/-- C2 counterexample: registering an animation with NO interpolator
succeeds — `addAnimation` has no validation and no throw path (its body is
nothing but property assignments), so the embedding is a total function;
the malformed animation is stored as-is, interpolator still missing. -/
theorem addAnimation_missing_interpolator_succeeds :
    Animator.hasAnimation (Animator.addAnimation (emptyAnimator ℚ 60) badProps 0) "x"
        = true ∧
      ∃ a, lookupAnim (Animator.addAnimation (emptyAnimator ℚ 60) badProps 0).animations "x"
          = some a ∧ a.interpolator = none := by
  exact ⟨rfl, ⟨_, rfl, rfl⟩⟩

/-- C2 (amended): `addAnimation` never fails — EVERY registration input is
accepted and stored (first conjunct, any props, including a missing
interpolator or updater and a degenerate `numFrames`); when the interpolator
is missing (and the animation starts active, the default), the failure
surfaces only later, as a thrown TypeError on the first per-tick update of
that animation, not synchronously at registration time. -/
theorem addAnimation_no_validation_defers_failure {V : Type}
    (st : AnimatorState V) (now later : ℚ) :
    (∀ props : AnimationProps V,
        Animator.hasAnimation (Animator.addAnimation st props now)
          props.animationName = true) ∧
    (∀ props : AnimationProps V, props.interpolator = none →
        props.isActive = none ∨ props.isActive = some true →
        ∃ a, lookupAnim (Animator.addAnimation st props now).animations
            props.animationName = some a ∧
          ∃ e, Animator.updateAnimation a later = .error e) := by
  constructor
  · intro props
    simp [Animator.hasAnimation, Animator.addAnimation, lookupAnim_putAnim_self]
  · intro props hint hact
    have hA : props.isActive.getD true = true := by
      rcases hact with h | h <;> simp [h]
    refine ⟨_, by simp [Animator.addAnimation]; exact lookupAnim_putAnim_self _ _ _, ?_⟩
    refine ⟨"TypeError: interpolator is not a function", ?_⟩
    cases hd : props.animateNegatively <;>
      cases hsym : props.isSymmetric.getD true <;>
      simp [Animator.updateAnimation, hd, hsym, hA, hint, Animation.callInterpolator,
        FGState.init, FGState.start, Bind.bind, Except.bind, Functor.map, Except.map]

/-- C2 witness: the amended theorem instantiated at `badProps` on a fresh
animator. -/
theorem addAnimation_no_validation_defers_failure_witness :
    Animator.hasAnimation (Animator.addAnimation (emptyAnimator ℚ 60) badProps 0)
        badProps.animationName = true ∧
      ∃ a, lookupAnim (Animator.addAnimation (emptyAnimator ℚ 60) badProps 0).animations
          badProps.animationName = some a ∧
        ∃ e, Animator.updateAnimation a 1 = .error e := by
  have h := addAnimation_no_validation_defers_failure (emptyAnimator ℚ 60) 0 1
  exact ⟨h.1 badProps, h.2 badProps rfl (Or.inl rfl)⟩

/-- C7: `next (isPositive)` performs the degenerate first-order integration
step — the unclamped target is
`i_t + (now - t_i - offset) * (isPositive ? 1 : -1) * FPMS` (with
`FPMS = FPS / 1000` captured at construction) — and then `boundCheck`
clamps it into `[0, n]`; when the generator is paused or not started, the
call changes nothing at all. -/
theorem next_advances_by_elapsed_times_fpms (s : FGState) (d : Bool) (now : ℚ) :
    (s.rawNext d now
        = s.i_t + (now - s.t_i - s.offset) * s.fpms * (if d then 1 else -1)) ∧
    ((s.isNotPaused && s.isStarted) = true →
        (s.next d now).i_t = min (s.n : ℚ) (max 0 (s.rawNext d now))) ∧
    ((s.isNotPaused && s.isStarted) = false → s.next d now = s) := by
  refine ⟨?_, ?_, ?_⟩
  · unfold FGState.rawNext rk4
    ring
  · intro h
    have hn0 : (0 : ℚ) ≤ (s.n : ℚ) := by positivity
    simp only [FGState.next, h, if_true]
    unfold FGState.boundCheck
    rcases le_or_lt (s.rawNext d now) 0 with h0 | h0
    · simp only [h0, if_pos]
      rw [max_eq_left h0, min_eq_right hn0]
    · rcases le_or_lt (s.n : ℚ) (s.rawNext d now) with h1 | h1
      · simp only [not_le.mpr h0, if_neg, if_pos h1, not_false_iff]
        simp [max_eq_right h0.le, min_eq_left h1]
      · simp only [not_le.mpr h0, not_le.mpr h1, if_neg, not_false_iff]
        simp [max_eq_right h0.le, min_eq_right h1.le]
  · intro h
    simp [FGState.next, h]

/-- C7 witness: a concrete Euler step on `fgSample` (advance by one frame)
and a concrete no-op on the paused `fgPausedSample`. -/
theorem next_advances_by_elapsed_times_fpms_witness :
    (fgSample.next true 1).i_t = min ((fgSample.n : ℕ) : ℚ) (max 0 (fgSample.rawNext true 1)) ∧
      fgPausedSample.next true 1 = fgPausedSample := by
  refine ⟨(next_advances_by_elapsed_times_fpms fgSample true 1).2.1 rfl, ?_⟩
  exact (next_advances_by_elapsed_times_fpms fgPausedSample true 1).2.2 rfl

/-- C10: `play` only unpauses the named animations' generators — it leaves
every animation's `isActive` flag untouched (last conjunct).  Hence an
animation paused through `pauseAnimation` (which sets `isActive := false`
and pauses the generator) stays `isActive = false` after `play [name]`:
its generator is unpaused, but the per-tick body skips it entirely (the
update returns no value and calls no updater).   `playAnimation`, by
contrast, restores both `isActive` and the unpaused state.  The same holds
for an animation paused through `pauseAll` (which requires the loop to be
running). -/
theorem play_unpauses_but_does_not_reactivate {V : Type} (st : AnimatorState V)
    (name : String) (a : Animation V) (now1 now2 : ℚ)
    (hfound : lookupAnim st.animations name = some a)
    (hnp : a.frameGenerator.isNotPaused = true) :
    (∃ a2, lookupAnim (Animator.play (Animator.pauseAnimation st name) [name] now1).animations
          name = some a2 ∧
        a2.isActive = false ∧
        a2.frameGenerator.isNotPaused = true ∧
        Animator.updateAnimation a2 now2 =
          .ok ({ a2 with frameGenerator :=
                  if a2.frameGenerator.isStarted then a2.frameGenerator
                  else a2.frameGenerator.start now2 }, none)) ∧
    (∃ a3, lookupAnim (Animator.playAnimation (Animator.pauseAnimation st name) name now1).animations
          name = some a3 ∧
        a3.isActive = true ∧ a3.frameGenerator.isNotPaused = true) ∧
    (st.continueLooping = true →
      ∃ a4, lookupAnim (Animator.play (Animator.pauseAll st) [name] now1).animations
          name = some a4 ∧
        a4.isActive = false ∧ a4.frameGenerator.isNotPaused = true) ∧
    (∀ nm b, lookupAnim st.animations nm = some b →
      ∃ b', lookupAnim (Animator.play st [name] now1).animations nm = some b' ∧
        b'.isActive = b.isActive) := by
  have hpauseLookup :
      lookupAnim (Animator.pauseAnimation st name).animations name =
        some { a with isActive := false, frameGenerator := a.frameGenerator.pause } := by
    simp [Animator.pauseAnimation, lookupAnim_updAnim, hfound, hnp]
  refine ⟨?_, ?_, ?_, ?_⟩
  · refine ⟨{ a with
        isActive := false,
        frameGenerator := (a.frameGenerator.pause).unpause now1 }, ?_, rfl, ?_, ?_⟩
    · simp only [Animator.play, List.foldl]
      simp [lookupAnim_updAnim, hpauseLookup]
    · simp [FGState.unpause, FGState.pause, hnp]
    · have hIA : ({ a with
          isActive := false,
          frameGenerator := (a.frameGenerator.pause).unpause now1 } : Animation V).isActive
            = false := rfl
      simp [Animator.updateAnimation, hIA, Pure.pure, Except.pure]
  · refine ⟨{ a with
        isActive := true,
        frameGenerator := (a.frameGenerator.pause).unpause now1 }, ?_, rfl, ?_⟩
    · simp only [Animator.playAnimation]
      rw [lookupAnim_updAnim]
      simp [hpauseLookup, FGState.pause, hnp]
    · simp [FGState.unpause, FGState.pause, hnp]
  · intro hloop
    refine ⟨{ a with
        isActive := false,
        frameGenerator := (a.frameGenerator.pause).unpause now1 }, ?_, rfl, ?_⟩
    · have hm : lookupAnim (List.map (fun p => (p.1, Animator.pauseAllAnim p.2))
            st.animations) name = some (Animator.pauseAllAnim a) := by
        rw [lookupAnim_mapSnd, hfound]
        rfl
      simp only [Animator.play, Animator.pauseAll, hloop, if_true, List.foldl]
      simp only [hm, Option.isSome_some, if_true]
      rw [lookupAnim_updAnim, if_pos rfl, hm]
      simp [Animator.pauseAllAnim]
    · simp [FGState.unpause, FGState.pause, hnp]
  · intro nm b hb
    simp only [Animator.play, List.foldl]
    by_cases hx : (lookupAnim st.animations name).isSome
    · simp only [hx, if_true]
      rw [lookupAnim_updAnim]
      by_cases hnm : nm = name
      · subst hnm
        rw [if_pos rfl, hb]
        exact ⟨_, rfl, rfl⟩
      · rw [if_neg hnm, hb]
        exact ⟨b, rfl, rfl⟩
    · simp only [hx, if_false]
      exact ⟨b, hb, rfl⟩

/-- C10 witness: on the concrete one-animation animator, after
`pauseAnimation` + `play ["fade"]` the animation is unpaused but still
inactive, while `playAnimation` restores activity. -/
theorem play_unpauses_but_does_not_reactivate_witness :
    (∃ a2, lookupAnim (Animator.play (Animator.pauseAnimation c10st "fade") ["fade"] 5).animations
          "fade" = some a2 ∧ a2.isActive = false ∧ a2.frameGenerator.isNotPaused = true) ∧
      (∃ a3, lookupAnim (Animator.playAnimation (Animator.pauseAnimation c10st "fade") "fade" 5).animations
          "fade" = some a3 ∧ a3.isActive = true) := by
  have h := play_unpauses_but_does_not_reactivate c10st "fade" c10anim 5 7 rfl rfl
  obtain ⟨⟨a2, h1, h2, h3, _⟩, ⟨a3, h4, h5, _⟩, _, _⟩ := h
  exact ⟨⟨a2, h1, h2, h3⟩, ⟨a3, h4, h5⟩⟩

/-- C5 counterexample: a symmetric animation flagged with a direction change
that is now running FORWARD (a backward-to-forward flip), with easing
`f (x) = x²`, `n = 4`, current position `percent = 1/2`, `start = 0`,
`end = 1`, linear interpolator.  The scan yields `x* = 3/4` and the loop
computes `interpolator (start, end, f (x*)) = 9/16` — NOT the claimed
"opposite start/end ordering with `transform (1 - x*)`", which would give
`interpolator (end, start, f (1 - x*)) = 15/16`. -/
theorem backward_to_forward_patch_refutes_claimed_formula :
    (c5fg.next true 0).calculateXStar sqT false = 3/4 ∧
      (∃ a', Animator.updateAnimation c5anim 0 = .ok (a', some (9/16))) ∧
      linInterp c5anim.endValue c5anim.startValue (sqT (1 - 3/4)) = 15/16 ∧
      ¬ ((9 : ℚ)/16 = 15/16) := by
  have hnext : c5fg.next true 0 = { c5fg with t_i := 0 } := by
    unfold c5fg FGState.next FGState.rawNext rk4 FGState.boundCheck
    norm_num
  have hxs : (c5fg.next true 0).calculateXStar sqT false = 3/4 := by
    rw [hnext]
    unfold FGState.calculateXStar FGState.percent xStarValue c5fg
    norm_num [xStarLoop, xStarSample, sqT, abs_of_nonneg, abs_of_nonpos]
  refine ⟨hxs, ?_, by norm_num [linInterp, sqT, c5anim], by norm_num⟩
  have hst : c5fg.isStarted = true := rfl
  have hnp2 : c5fg.isNotPaused = true := rfl
  simp only [Animator.updateAnimation, c5anim, hst, if_true]
  norm_num [hst, hnp2, hxs, Animation.callInterpolator, Animation.callUpdater,
    Bind.bind, Except.bind, Pure.pure, Except.pure, linInterp, sqT]

/-- C5 (amended): on a per-tick update of a SYMMETRIC animation whose
direction-change flag is set, the loop computes
`x* = calculateXStar (transform, flippingToNegative)` where
`flippingToNegative` is true exactly when the animation now runs backward,
relocates the (already `next`-advanced) FrameGenerator via
`revertToPercentage (x*)`, clears the flag, and bumps the updater — but the
interpolated value depends on the branch: running backward
(forward-to-backward flip) it is
`interpolator (end, start, transform (1 - x*))`, while running forward
(backward-to-forward flip) it is `interpolator (start, end, transform (x*))`
— not the uniform "opposite ordering with `transform (1 - x*)`" of the
original claim.  (Asymmetric animations never run the patch and keep the
flag set, which is why the statement assumes `isSymmetric`.) -/
theorem direction_change_patch_branches {V : Type} (a : Animation V) (now : ℚ)
    (f : V → V → ℚ → V)
    (hsym : a.isSymmetric = true) (hdc : a.experiencedDirectionChange = true)
    (hact : a.isActive = true) (hst : a.frameGenerator.isStarted = true)
    (hnp : a.frameGenerator.isNotPaused = true)
    (hint : a.interpolator = some f) (hupd : a.hasUpdater = true) :
    ∃ a' v, Animator.updateAnimation a now = .ok (a', some v) ∧
      a'.experiencedDirectionChange = false ∧
      a'.frameGenerator = (a.frameGenerator.next a.animationDirection now).revertToPercentage
        ((a.frameGenerator.next a.animationDirection now).calculateXStar
          a.interpolationTransform (!a.animationDirection)) ∧
      v = (if a.animationDirection then
            f a.startValue a.endValue (a.interpolationTransform
              ((a.frameGenerator.next a.animationDirection now).calculateXStar
                a.interpolationTransform false))
          else
            f a.endValue a.startValue (a.interpolationTransform
              (1 - (a.frameGenerator.next a.animationDirection now).calculateXStar
                a.interpolationTransform true))) ∧
      a'.updaterCalls = a.updaterCalls + 1 := by
  cases hd : a.animationDirection with
  | false =>
    refine ⟨{ a with
        frameGenerator := (a.frameGenerator.next false now).revertToPercentage
          ((a.frameGenerator.next false now).calculateXStar a.interpolationTransform true),
        experiencedDirectionChange := false,
        updaterCalls := a.updaterCalls + 1 },
      f a.endValue a.startValue (a.interpolationTransform
        (1 - (a.frameGenerator.next false now).calculateXStar a.interpolationTransform true)),
      ?_, rfl, by simp, by simp, rfl⟩
    simp [Animator.updateAnimation, hsym, hdc, hact, hst, hnp, hint, hupd, hd,
      Animation.callInterpolator, Animation.callUpdater,
      Bind.bind, Except.bind, Pure.pure, Except.pure]
  | true =>
    refine ⟨{ a with
        frameGenerator := (a.frameGenerator.next true now).revertToPercentage
          ((a.frameGenerator.next true now).calculateXStar a.interpolationTransform false),
        experiencedDirectionChange := false,
        updaterCalls := a.updaterCalls + 1 },
      f a.startValue a.endValue (a.interpolationTransform
        ((a.frameGenerator.next true now).calculateXStar a.interpolationTransform false)),
      ?_, rfl, by simp, by simp, rfl⟩
    simp [Animator.updateAnimation, hsym, hdc, hact, hst, hnp, hint, hupd, hd,
      Animation.callInterpolator, Animation.callUpdater,
      Bind.bind, Except.bind, Pure.pure, Except.pure]

/-- C5 witness: the amended branch theorem applied to the concrete
`c5anim`. -/
theorem direction_change_patch_branches_witness :
    ∃ a' v, Animator.updateAnimation c5anim 0 = .ok (a', some v) ∧
      a'.experiencedDirectionChange = false ∧
      a'.updaterCalls = c5anim.updaterCalls + 1 := by
  obtain ⟨a', v, h1, h2, _, _, h5⟩ :=
    direction_change_patch_branches c5anim 0 linInterp rfl rfl rfl rfl rfl rfl rfl
  exact ⟨a', v, h1, h2, h5⟩

/-- `boundCheck` always lands `i_t` in `[0, n]` (and never touches `n`). -/
theorem boundCheck_mem (s : FGState) :
    0 ≤ s.boundCheck.i_t ∧ s.boundCheck.i_t ≤ (s.boundCheck.n : ℚ) ∧
      s.boundCheck.n = s.n := by
  unfold FGState.boundCheck
  rcases le_or_lt s.i_t 0 with h0 | h0
  · rw [if_pos h0]
    exact ⟨le_refl 0, Nat.cast_nonneg s.n, rfl⟩
  · rw [if_neg (not_le.mpr h0)]
    rcases le_or_lt (s.n : ℚ) s.i_t with h1 | h1
    · rw [if_pos h1]
      exact ⟨Nat.cast_nonneg s.n, le_refl _, rfl⟩
    · rw [if_neg (not_le.mpr h1)]
      exact ⟨h0.le, h1.le, rfl⟩

/-- Every public FrameGenerator call keeps `n` unchanged. -/
theorem applyOp_n (s : FGState) (o : FGOp) : (s.applyOp o).n = s.n := by
  cases o <;>
    simp [FGState.applyOp, FGState.start, FGState.reset, FGState.endFrame,
      FGState.pause, FGState.unpause, FGState.next, FGState.revertToFrame,
      FGState.revertToPercentage] <;>
    split_ifs <;>
    simp [(boundCheck_mem _).2.2]

/-- Every public FrameGenerator call preserves `i_t ∈ [0, n]`. -/
theorem applyOp_bounds (s : FGState) (o : FGOp)
    (h0 : 0 ≤ s.i_t) (h1 : s.i_t ≤ (s.n : ℚ)) :
    0 ≤ (s.applyOp o).i_t ∧ (s.applyOp o).i_t ≤ ((s.applyOp o).n : ℚ) := by
  cases o with
  | start now =>
    unfold FGState.applyOp FGState.start
    split_ifs <;> exact ⟨h0, h1⟩
  | reset =>
    exact ⟨le_refl 0, Nat.cast_nonneg s.n⟩
  | endFrame =>
    exact ⟨Nat.cast_nonneg s.n, le_refl _⟩
  | pause =>
    unfold FGState.applyOp FGState.pause
    split_ifs <;> exact ⟨h0, h1⟩
  | unpause now =>
    unfold FGState.applyOp FGState.unpause
    split_ifs <;> exact ⟨h0, h1⟩
  | next d now =>
    unfold FGState.applyOp FGState.next
    split_ifs with hif
    · have hb := boundCheck_mem { s with i_t := s.rawNext d now }
      exact ⟨hb.1, hb.2.1⟩
    · exact ⟨h0, h1⟩
  | revertToFrame fr =>
    unfold FGState.applyOp FGState.revertToFrame
    split_ifs with hif
    · have hb := boundCheck_mem { s with offset := 0, i_t := fr }
      exact ⟨hb.1, hb.2.1⟩
    · exact ⟨h0, h1⟩
  | revertToPercentage pr =>
    unfold FGState.applyOp FGState.revertToPercentage
    split_ifs with hif
    · have hb := boundCheck_mem { s with offset := 0, i_t := pr * (s.n : ℚ) }
      exact ⟨hb.1, hb.2.1⟩
    · exact ⟨h0, h1⟩

/-- C8: (1) over EVERY sequence of public FrameGenerator calls, `frameCount`
stays clamped to `[0, n]`; (2) repeated `next (true)` calls while already
resting at `frameCount = n` with the end callback armed-off leave
`frameCount = n` and do NOT fire `onAnimationEnd` again; (3) a `next (true)`
that ENTERS the end boundary (end flag re-armed, unclamped target at or past
`n`) fires `onAnimationEnd` exactly once; (4) a `next` landing strictly
inside `(0, n)` re-arms both boundary callbacks.  (Symmetric reasoning for
the `0` boundary follows from the same `boundCheck`: parts (5) and (6) state
the `0`-boundary resting idempotence and entry fire, and part (4) covers
re-arming.) -/
theorem frameCount_clamped_and_boundary_fires_once :
    (∀ (s : FGState) (l : List FGOp), 0 ≤ s.i_t → s.i_t ≤ (s.n : ℚ) →
      0 ≤ (s.applyOps l).i_t ∧ (s.applyOps l).i_t ≤ ((s.applyOps l).n : ℚ)) ∧
    (∀ (s : FGState) (now : ℚ), s.isStarted = true → s.isNotPaused = true →
      s.i_t = (s.n : ℚ) → s.prevWasOne = true → 0 ≤ s.fpms →
      s.t_i + s.offset ≤ now →
      (s.next true now).i_t = (s.n : ℚ) ∧ (s.next true now).endFires = s.endFires) ∧
    (∀ (s : FGState) (now : ℚ), s.isStarted = true → s.isNotPaused = true →
      s.prevWasOne = false → (s.n : ℚ) ≤ s.rawNext true now →
      0 < s.rawNext true now →
      (s.next true now).i_t = (s.n : ℚ) ∧
        (s.next true now).endFires = s.endFires + 1) ∧
    (∀ (s : FGState) (d : Bool) (now : ℚ), s.isStarted = true →
      s.isNotPaused = true → 0 < s.rawNext d now →
      s.rawNext d now < (s.n : ℚ) →
      (s.next d now).i_t = s.rawNext d now ∧
        (s.next d now).prevWasZero = false ∧ (s.next d now).prevWasOne = false) ∧
    (∀ (s : FGState) (now : ℚ), s.isStarted = true → s.isNotPaused = true →
      s.i_t = 0 → s.prevWasZero = true → 0 ≤ s.fpms → s.t_i + s.offset ≤ now →
      (s.next false now).i_t = 0 ∧ (s.next false now).startFires = s.startFires) ∧
    (∀ (s : FGState) (now : ℚ), s.isStarted = true → s.isNotPaused = true →
      s.prevWasZero = false → s.rawNext false now ≤ 0 →
      (s.next false now).i_t = 0 ∧
        (s.next false now).startFires = s.startFires + 1) := by
  refine ⟨?_, ?_, ?_, ?_, ?_, ?_⟩
  · intro s l
    induction l generalizing s with
    | nil => exact fun h0 h1 => ⟨h0, h1⟩
    | cons o t ih =>
      intro h0 h1
      have hb := applyOp_bounds s o h0 h1
      exact ih (s.applyOp o) hb.1 hb.2
  · intro s now hst hnp hit hprev hfpms hnow
    have hdt : 0 ≤ now - s.t_i - s.offset := by linarith
    have hraw : (s.n : ℚ) ≤ s.rawNext true now := by
      simp only [FGState.rawNext, rk4, hit, if_true, mul_one]
      nlinarith [mul_nonneg hdt hfpms]
    simp only [FGState.next, hst, hnp, Bool.and_self, if_true]
    unfold FGState.boundCheck
    rcases le_or_lt (s.rawNext true now) 0 with h0 | h0
    · rw [if_pos h0]
      have hzero : (s.n : ℚ) = 0 :=
        le_antisymm (by linarith) (Nat.cast_nonneg s.n)
      exact ⟨hzero.symm, rfl⟩
    · rw [if_neg (not_le.mpr h0), if_pos hraw]
      exact ⟨rfl, by simp [hprev]⟩
  · intro s now hst hnp hprev hraw h0
    simp only [FGState.next, hst, hnp, Bool.and_self, if_true]
    unfold FGState.boundCheck
    rw [if_neg (not_le.mpr h0), if_pos hraw]
    exact ⟨rfl, by simp [hprev]⟩
  · intro s d now hst hnp h0 h1
    simp only [FGState.next, hst, hnp, Bool.and_self, if_true]
    unfold FGState.boundCheck
    rw [if_neg (not_le.mpr h0), if_neg (not_le.mpr h1)]
    exact ⟨rfl, rfl, rfl⟩
  · intro s now hst hnp hit hprev hfpms hnow
    have hdt : 0 ≤ now - s.t_i - s.offset := by linarith
    have hraw : s.rawNext false now ≤ 0 := by
      simp only [FGState.rawNext, rk4, hit, zero_add]
      have hneg : (if (false : Bool) then (1 : ℚ) else -1) = -1 := rfl
      rw [hneg]
      nlinarith [mul_nonneg hdt hfpms]
    simp only [FGState.next, hst, hnp, Bool.and_self, if_true]
    unfold FGState.boundCheck
    rw [if_pos hraw]
    exact ⟨rfl, by simp [hprev]⟩
  · intro s now hst hnp hprev hraw
    simp only [FGState.next, hst, hnp, Bool.and_self, if_true]
    unfold FGState.boundCheck
    rw [if_pos hraw]
    exact ⟨rfl, by simp [hprev]⟩

/-- C8 witness: the invariant after a concrete call sequence on `fgSample`,
and no re-fire of the end callback on a `next` while resting at the end
boundary of `fgAtEnd`. -/
theorem frameCount_clamped_and_boundary_fires_once_witness :
    (0 ≤ (fgSample.applyOps [.next true 1, .pause, .unpause 3, .next true 4]).i_t ∧
      (fgSample.applyOps [.next true 1, .pause, .unpause 3, .next true 4]).i_t ≤
        (((fgSample.applyOps [.next true 1, .pause, .unpause 3, .next true 4]).n : ℕ) : ℚ)) ∧
    ((fgAtEnd.next true 1).i_t = ((4 : ℕ) : ℚ) ∧
      (fgAtEnd.next true 1).endFires = fgAtEnd.endFires) := by
  constructor
  · exact (frameCount_clamped_and_boundary_fires_once.1 fgSample
      [.next true 1, .pause, .unpause 3, .next true 4] (by norm_num [fgSample])
      (by norm_num [fgSample]))
  · exact (frameCount_clamped_and_boundary_fires_once.2.1 fgAtEnd 1 rfl rfl
      (by norm_num [fgAtEnd]) rfl (by norm_num [fgAtEnd]) (by norm_num [fgAtEnd]))

/-- The scan invariant of the `calculateXStar` loop: starting from a partial
best `b` that is the earliest minimizer of the distances over the prefix
`[0, i)` (and not an exact match), the loop returns the earliest minimizer
over the whole range `[0, n]`. -/
theorem xStarLoop_argmin (f : ℚ → ℚ) (ptn : Bool) (n : ℕ) (value : ℚ) :
    ∀ (fuel i b : ℕ), i + fuel = n + 1 → b < i →
      xStarSample f ptn n b ≠ value →
      (∀ j, j < i → xStarDist f ptn n value b ≤ xStarDist f ptn n value j) →
      (∀ j, j < b → xStarDist f ptn n value b < xStarDist f ptn n value j) →
      ∃ b', b' ≤ n ∧
        xStarLoop f ptn n value fuel i
            (some (xStarSample f ptn n b, (b : ℚ) / (n : ℚ)))
          = some (xStarSample f ptn n b', (b' : ℚ) / (n : ℚ)) ∧
        (∀ j, j ≤ n → xStarDist f ptn n value b' ≤ xStarDist f ptn n value j) ∧
        (∀ j, j < b' → xStarDist f ptn n value b' < xStarDist f ptn n value j) := by
  intro fuel
  induction fuel with
  | zero =>
    intro i b hsum hbi hne hmin hstrict
    refine ⟨b, by omega, rfl, fun j hj => hmin j (by omega), hstrict⟩
  | succ fuel ih =>
    intro i b hsum hbi hne hmin hstrict
    simp only [xStarLoop]
    rcases lt_or_le |xStarSample f ptn n i - value| |xStarSample f ptn n b - value|
      with hlt | hge
    · rw [if_pos hlt]
      by_cases heq : xStarSample f ptn n i = value
      · rw [if_pos heq]
        refine ⟨i, by omega, rfl, ?_, ?_⟩
        · intro j _
          simp only [xStarDist, heq, sub_self, abs_zero]
          exact abs_nonneg _
        · intro j hj
          calc xStarDist f ptn n value i
              < xStarDist f ptn n value b := hlt
            _ ≤ xStarDist f ptn n value j := hmin j (by omega)
      · rw [if_neg heq]
        refine ih (i + 1) i (by omega) (by omega) heq ?_ ?_
        · intro j hj
          rcases Nat.lt_or_ge j i with hji | hji
          · exact le_of_lt (lt_of_lt_of_le hlt (hmin j hji))
          · have : j = i := by omega
            subst this
            exact le_refl _
        · intro j hj
          exact lt_of_lt_of_le hlt (hmin j hj)
    · rw [if_neg (not_lt.mpr hge)]
      rw [if_neg hne]
      refine ih (i + 1) b (by omega) (by omega) hne ?_ hstrict
      intro j hj
      rcases Nat.lt_or_ge j i with hji | hji
      · exact hmin j hji
      · have : j = i := by omega
        subst this
        exact hge

/-- The full scan from the initial `(Infinity, Infinity)` accumulator
returns the earliest minimizer over `[0, n]`. -/
theorem xStarLoop_start_argmin (f : ℚ → ℚ) (ptn : Bool) (n : ℕ) (value : ℚ) :
    ∃ b, b ≤ n ∧
      xStarLoop f ptn n value (n + 1) 0 none
        = some (xStarSample f ptn n b, (b : ℚ) / (n : ℚ)) ∧
      (∀ j, j ≤ n → xStarDist f ptn n value b ≤ xStarDist f ptn n value j) ∧
      (∀ j, j < b → xStarDist f ptn n value b < xStarDist f ptn n value j) := by
  simp only [xStarLoop]
  by_cases heq : xStarSample f ptn n 0 = value
  · rw [if_pos heq]
    refine ⟨0, Nat.zero_le n, rfl, ?_, fun j hj => absurd hj (Nat.not_lt_zero j)⟩
    intro j _
    simp only [xStarDist, heq, sub_self, abs_zero]
    exact abs_nonneg _
  · rw [if_neg heq]
    exact xStarLoop_argmin f ptn n value n 1 0 (by omega) (by omega) heq
      (fun j hj => by
        have : j = 0 := by omega
        subst this
        exact le_refl _)
      (fun j hj => absurd hj (Nat.not_lt_zero j))

/-- C6: `calculateXStar (f, positiveToNegative)` returns `b / n` where `b`
is the EARLIEST index among the `n + 1` discretized frames `0, ..., n`
whose opposite-direction curve value (`f (1 - i/n)` when flipping
positive-to-negative, else `1 - f (i/n)`, the definition of
`xStarSample`) is closest in absolute difference to the current-direction
value (`1 - f (p)`, respectively `f (1 - p)`, the definition of
`xStarValue` at `p = percent ()`); the returned fraction lies in `[0, 1]`.
(The exact-match short-circuit of the source loop does not change the
returned value — an exact match is a zero-distance minimizer and the scan
keeps the earliest minimizer either way — so the characterization covers
it.) -/
theorem calculateXStar_returns_earliest_closest_fraction (s : FGState)
    (f : ℚ → ℚ) (ptn : Bool) (hn : 1 ≤ s.n) :
    ∃ b : ℕ, b ≤ s.n ∧
      s.calculateXStar f ptn = (b : ℚ) / (s.n : ℚ) ∧
      (∀ j, j ≤ s.n →
        xStarDist f ptn s.n (xStarValue f ptn s.percent) b ≤
          xStarDist f ptn s.n (xStarValue f ptn s.percent) j) ∧
      (∀ j, j < b →
        xStarDist f ptn s.n (xStarValue f ptn s.percent) b <
          xStarDist f ptn s.n (xStarValue f ptn s.percent) j) ∧
      0 ≤ s.calculateXStar f ptn ∧ s.calculateXStar f ptn ≤ 1 := by
  obtain ⟨b, hb, hloop, hmin, hstrict⟩ :=
    xStarLoop_start_argmin f ptn s.n (xStarValue f ptn s.percent)
  have hcalc : s.calculateXStar f ptn = (b : ℚ) / (s.n : ℚ) := by
    unfold FGState.calculateXStar
    rw [hloop]
  have hnpos : (0 : ℚ) < (s.n : ℚ) := by exact_mod_cast hn
  have h0 : 0 ≤ (b : ℚ) / (s.n : ℚ) := by positivity
  have h1 : (b : ℚ) / (s.n : ℚ) ≤ 1 := by
    rw [div_le_one hnpos]
    exact_mod_cast hb
  exact ⟨b, hb, hcalc, hmin, hstrict, hcalc ▸ h0, hcalc ▸ h1⟩

/-- C6 witness: the characterization applied to the concrete `c5fg`
(`n = 4`) with the quadratic easing, extracting the `[0, 1]` bounds. -/
theorem calculateXStar_returns_earliest_closest_fraction_witness :
    0 ≤ c5fg.calculateXStar sqT false ∧ c5fg.calculateXStar sqT false ≤ 1 := by
  obtain ⟨b, _, _, _, _, h0, h1⟩ :=
    calculateXStar_returns_earliest_closest_fraction c5fg sqT false (by norm_num [c5fg])
  exact ⟨h0, h1⟩
